import Mathlib

/-!
Verification of the `Scaffold` command-orchestration class (src/index.ts,
second revision of the module, lines 342-684, which is the revision the
claims cite).

The embedding is shallow:

* `ICommandOpts` mirrors the per-call options object.  In the source the
  caller passes a partial object that is merged with per-method defaults via
  `Object.assign`; we model each field as an `Option` and read it with
  `Option.getD` at the point the source applies its default.
* `Scaffold` carries the mutable instance state: the command queue `_cmds`,
  the `_history`, the counting semaphore's outstanding count, and the
  diagnostic lines printed by `copy` (`console.log`).
* External collaborators stay outside the model and enter as parameters:
  - the local execution capability (`callSync` of util.toolbox) is an oracle
    `String → Option String` returning `some err` on failure,
  - the remote transport (`ssh2`) is an oracle `Nat → ROutcome` giving each
    dispatched command's outcome (channel-open failure, close with error,
    or clean close),
  - `fs.readFileSync` / `fs.existsSync` / `uuid.v4()` become explicit
    arguments of `put` and `copy`,
  - the `Semaphore` of util.wait is external; its `wait` is modelled from
    the spec (see `waitOutcome`).
* Draining (`go` / `runLocal` / `runRemote`) returns a `GoResult` recording
  everything observable: the history, the exact calls made to the local and
  transport capabilities, the channel event trace of the remote backend, and
  the sequence of invocations of the `go` callback.
-/

namespace Halfback

/-- Options object for the builder calls (`ICommandOpts` in src/index.ts,
lines 362-372).  Fields are `Option`s because the source merges a partial
object with per-method defaults via `Object.assign`. -/
structure ICommandOpts where
  cwd : Option String := none
  delay : Option Nat := none
  group : Option String := none
  mode : Option String := none
  owner : Option String := none
  recursive : Option Bool := none
  «sudo» : Option Bool := none
  verbose : Option Bool := none
  shell : Option String := none
deriving Repr, DecidableEq

/-- Constructor options (`IScaffoldOpts`, lines 353-360).  `host = none`
puts the instance in local mode (constructor, lines 403-408). -/
structure IScaffoldOpts where
  stub : Bool := false
  host : Option String := none
  port : Nat := 22
  timeout : Nat := 3600
deriving Repr, DecidableEq

/-- Instance state of the `Scaffold` class: `_cmds`, `_history`, the
outstanding count of the `Semaphore`, and the diagnostics printed by
`copy` via `console.log`. -/
structure Scaffold where
  cmds : List String := []
  history : List String := []
  semaphore : Int := 0
  logs : List String := []
deriving Repr, DecidableEq

/-- The fresh state produced by the constructor (lines 392-409): empty
queue, empty history, semaphore count zero. -/
def scaffoldInit : Scaffold := {}

/-- Command rendering performed inside `run` (lines 428-434): if `cwd` is a
non-empty string, prepend a `cd` clause whose tail command gets an inner
`sudo ` when `sudo` is set; then, if `sudo` is set, wrap the whole string
with `sudo -E `. -/
def renderCmd (cmd : String) (opts : ICommandOpts) : String :=
  let sudoFlag := opts.«sudo».getD false
  let cwd := opts.cwd.getD ""
  let cmd1 :=
    if cwd ≠ "" then
      "cd " ++ cwd ++ " && " ++ (if sudoFlag then "sudo " else "") ++ cmd
    else cmd
  if sudoFlag then "sudo -E " ++ cmd1 else cmd1

/-- `Scaffold.run` (lines 421-446): an empty command is a no-op; otherwise
the rendered string is pushed on `_cmds` and the semaphore is incremented
once.  The post-enqueue `wait(opts.delay, …)` is fire-and-forget and does
not touch the instance state, so it has no footprint here. -/
def Scaffold.run (s : Scaffold) (cmd : String) (opts : ICommandOpts) : Scaffold :=
  if cmd = "" then s
  else
    { s with
      semaphore := s.semaphore + 1
      cmds := s.cmds ++ [renderCmd cmd opts] }

/-- `Scaffold.sudo` (lines 454-459): `opts = Object.assign({cwd: ''}, opts)`
materialises the `cwd` default, then `opts.sudo = true` overwrites the
caller's `sudo` field unconditionally, and the call delegates to `run`. -/
def Scaffold.«sudo» (s : Scaffold) (cmd : String) (opts : ICommandOpts) : Scaffold :=
  let merged : ICommandOpts := { opts with cwd := some (opts.cwd.getD "") }
  s.run cmd { merged with «sudo» := some true }

/-- `Scaffold.put` (lines 473-485).  The content of the local file
(`fs.readFileSync lfile`) and the generated heredoc delimiter (`uuid.v4()`)
are external inputs and appear as parameters.  Three privilege-escalated
commands are queued in order: the heredoc `tee` write, a recursive `chown`,
and a recursive `chmod`. -/
def Scaffold.put (s : Scaffold) (lfileContent heredocId rfile : String)
    (opts : ICommandOpts) : Scaffold :=
  let mode := opts.mode.getD "755"
  let owner := opts.owner.getD "root"
  let group := opts.group.getD "root"
  let cmd := "tee " ++ rfile ++ " <<-\x27" ++ heredocId ++ "\x27\n"
      ++ lfileContent ++ "\n" ++ heredocId
  (((s.«sudo» cmd {}).«sudo»
      ("chown -R " ++ owner ++ "." ++ group ++ " " ++ rfile) {}).«sudo»
      ("chmod -R " ++ mode ++ " " ++ rfile) {})

/-- `Scaffold.mkdir` (lines 499-507): guarded idempotent creation followed
by the same ownership/permission pair as `put`. -/
def Scaffold.mkdir (s : Scaffold) (directory : String)
    (opts : ICommandOpts) : Scaffold :=
  let mode := opts.mode.getD "755"
  let owner := opts.owner.getD "root"
  let group := opts.group.getD "root"
  (((s.«sudo» ("[ ! -d " ++ directory ++ " ] && sudo mkdir -p " ++ directory
        ++ " || echo \"directory already exists\"") {}).«sudo»
      ("chown -R " ++ owner ++ "." ++ group ++ " " ++ directory) {}).«sudo»
      ("chmod -R " ++ mode ++ " " ++ directory) {})

/-- `Scaffold.copy` (lines 522-532).  The eager `fs.existsSync(src)` check
is an external input and appears as the parameter `srcExists`.  When the
source exists a `cp` command is queued through `run`; otherwise nothing is
queued and a diagnostic line is printed (`console.log`).  Either way the
method returns the instance, so the builder chain continues. -/
def Scaffold.copy (s : Scaffold) (srcExists : Bool) (src dst : String)
    (opts : ICommandOpts) : Scaffold :=
  let rec' := opts.recursive.getD false
  let sudoFlag := opts.«sudo».getD false
  if srcExists then
    s.run ("cp " ++ (if rec' then "-r" else "") ++ " " ++ src ++ " " ++ dst)
      { «sudo» := some sudoFlag }
  else
    { s with logs := s.logs ++ ["No copy.  " ++ src ++ " does not exist"] }

/-- Channel events of the remote backend, indexed by the position of the
command in the drained queue: `execCall i cmd` is the invocation of the
transport capability `ssh.exec` for the i-th command (line 638);
`chanClose i cmd ok` is the i-th command's channel `close` event, `ok`
false meaning a close carrying an error (lines 643-653). -/
inductive REvent where
  | execCall (i : Nat) (cmd : String)
  | chanClose (i : Nat) (cmd : String) (ok : Bool)
deriving Repr, DecidableEq

/-- Outcome of dispatching one command over the transport: channel-open
failure (the `err` argument of the `ssh.exec` callback, line 639), close
with an error (`clerr`, line 644), or a clean close. -/
inductive ROutcome where
  | openFail
  | closeFail
  | ok
deriving Repr, DecidableEq

/-- Everything observable from one drain (`go`): the history, the exact
command strings passed to the local execution capability and to the
transport capability, the remote channel event trace, the successive
invocations of the `go` callback (`none` = called with a null error), and
the final semaphore count. -/
structure GoResult where
  history : List String
  localExecCalls : List String
  transportExecCalls : List String
  events : List REvent
  cbCalls : List (Option String)
  sem : Int
deriving Repr, DecidableEq

/-- The `while` loop of `runLocal` (lines 583-603), as a structural
recursion on the queue.  Each iteration shifts a command, decrements the
semaphore, appends to history, and (unless stubbed) invokes the local
execution capability; on failure the source does `return cb(err, self)`
inside the `callSync` callback, which only leaves that inner callback —
the loop keeps draining, and the final `return cb(null, self)` after the
loop fires regardless.  The recursion reproduces exactly that: an error
adds a callback invocation and continues. -/
def runLocalAux (stub : Bool) (oracle : String → Option String) :
    List String → Int → GoResult
  | [], sem => ⟨[], [], [], [], [none], sem⟩
  | c :: rest, sem =>
    let r := runLocalAux stub oracle rest (sem - 1)
    if stub then
      { r with history := c :: r.history }
    else
      match oracle c with
      | some e =>
        { r with
          history := c :: r.history
          localExecCalls := c :: r.localExecCalls
          cbCalls := some e :: r.cbCalls }
      | none =>
        { r with
          history := c :: r.history
          localExecCalls := c :: r.localExecCalls }

/-- `Scaffold.runLocal` (lines 582-604): drain `_cmds` with the loop above,
extending the instance's existing `_history`. -/
def Scaffold.runLocal (s : Scaffold) (stub : Bool)
    (oracle : String → Option String) : GoResult :=
  let r := runLocalAux stub oracle s.cmds s.semaphore
  { r with history := s.history ++ r.history }

/-- The inner `exec` function of `runRemote` (lines 624-661), as a
structural recursion on the rest of the queue; `i` is the position of the
current command.  Stub branch (lines 631-636): push history, decrement,
recurse.  Live branch: invoke the transport; on channel-open failure or on
a close carrying an error, invoke the `go` callback with the error and stop
(no decrement, no further dispatch); on a clean close decrement and
dispatch the next command — the recursive call sits inside the close
handler, which is what serializes the dispatches. -/
def remoteConsume (stub : Bool) (oracle : Nat → ROutcome) :
    Nat → String → List String → Int → GoResult
  | i, cmd, [], sem =>
    if stub then ⟨[cmd], [], [], [], [], sem - 1⟩
    else
      match oracle i with
      | .openFail =>
        ⟨[cmd], [], [cmd], [.execCall i cmd], [some "channel open failure"], sem⟩
      | .closeFail =>
        ⟨[cmd], [], [cmd], [.execCall i cmd, .chanClose i cmd false],
          [some "command failed"], sem⟩
      | .ok =>
        ⟨[cmd], [], [cmd], [.execCall i cmd, .chanClose i cmd true], [], sem - 1⟩
  | i, cmd, c :: rest, sem =>
    if stub then
      let r := remoteConsume stub oracle (i + 1) c rest (sem - 1)
      { r with history := cmd :: r.history }
    else
      match oracle i with
      | .openFail =>
        ⟨[cmd], [], [cmd], [.execCall i cmd], [some "channel open failure"], sem⟩
      | .closeFail =>
        ⟨[cmd], [], [cmd], [.execCall i cmd, .chanClose i cmd false],
          [some "command failed"], sem⟩
      | .ok =>
        let r := remoteConsume stub oracle (i + 1) c rest (sem - 1)
        { r with
          history := cmd :: r.history
          transportExecCalls := cmd :: r.transportExecCalls
          events := .execCall i cmd :: .chanClose i cmd true :: r.events }

/-- Result of the Semaphore's `wait` (util.wait, external — modelled from
the spec: "a waiting consumer is released exactly when the count returns to
zero (or a configured timeout elapses, which is a failure condition)"):
`none` (release, success) exactly when the count is zero, otherwise a
timeout error. -/
def waitOutcome (count : Int) : Option String :=
  if count = 0 then none else some "timeout"

/-- `Scaffold.runRemote` (lines 616-683): dispatch the first shifted
command through the inner `exec`, then `semaphore.wait()` either resolves
(count zero — callback invoked with a null error, line 678) or times out
(callback invoked with the timeout error, line 681).  On an empty queue the
source dereferences `this._cmds.shift()` which is `undefined`; that
degenerate dispatch is left outside the model and every theorem about the
remote backend assumes a non-empty queue. -/
def Scaffold.runRemote (s : Scaffold) (stub : Bool)
    (oracle : Nat → ROutcome) : GoResult :=
  match s.cmds with
  | [] => ⟨s.history, [], [], [], [], s.semaphore⟩
  | c :: rest =>
    let r := remoteConsume stub oracle 0 c rest s.semaphore
    { r with
      history := s.history ++ r.history
      cbCalls := r.cbCalls ++ [waitOutcome r.sem] }

/-- `Scaffold.go` (lines 546-562): select the backend from the mode fixed
at construction (`_local` is true exactly when the config has no `host`). -/
def Scaffold.go (s : Scaffold) (cfg : IScaffoldOpts)
    (lo : String → Option String) (ro : Nat → ROutcome) : GoResult :=
  if cfg.host = none then s.runLocal cfg.stub lo else s.runRemote cfg.stub ro

/-- A builder-phase call: `run` or `sudo` with its options object. -/
inductive BuildOp where
  | runOp (cmd : String) (opts : ICommandOpts)
  | sudoOp (cmd : String) (opts : ICommandOpts)
deriving Repr, DecidableEq

/-- Apply a sequence of builder calls to an instance, left to right. -/
def applyOps : Scaffold → List BuildOp → Scaffold
  | s, [] => s
  | s, .runOp c o :: rest => applyOps (s.run c o) rest
  | s, .sudoOp c o :: rest => applyOps (s.«sudo» c o) rest

/-- The rendered string a builder call queues, `none` for the empty-command
no-op. -/
def renderedOf : BuildOp → Option String
  | .runOp c o => if c = "" then none else some (renderCmd c o)
  | .sudoOp c o =>
    if c = "" then none
    else some (renderCmd c { o with cwd := some (o.cwd.getD ""), «sudo» := some true })

/-- A fresh instance after a builder phase. -/
def buildScaffold (ops : List BuildOp) : Scaffold :=
  applyOps scaffoldInit ops

/-- Local live configuration (constructed with no host, stub off). -/
def cfgLocalLive : IScaffoldOpts := {}

/-- Local stub configuration. -/
def cfgLocalStub : IScaffoldOpts := { stub := true }

/-- Remote live configuration. -/
def cfgRemoteLive : IScaffoldOpts := { host := some "127.0.0.1" }

/-- Remote stub configuration. -/
def cfgRemoteStub : IScaffoldOpts := { stub := true, host := some "127.0.0.1" }

/-! ## Basic lemmas about the builder operations -/

lemma append_left_ne_empty (a b : String) (h : a ≠ "") : a ++ b ≠ "" := by
  intro he
  apply h
  have hd := congrArg String.data he
  rw [String.data_append] at hd
  exact String.ext (List.append_eq_nil.mp hd).1

lemma run_of_ne (s : Scaffold) (cmd : String) (opts : ICommandOpts)
    (h : cmd ≠ "") :
    s.run cmd opts =
      { s with semaphore := s.semaphore + 1
               cmds := s.cmds ++ [renderCmd cmd opts] } := by
  simp [Scaffold.run, h]

lemma run_of_empty (s : Scaffold) (opts : ICommandOpts) :
    s.run "" opts = s := by
  simp [Scaffold.run]

lemma sudo_as_run (s : Scaffold) (cmd : String) (opts : ICommandOpts) :
    s.«sudo» cmd opts
      = s.run cmd { opts with cwd := some (opts.cwd.getD ""), «sudo» := some true } :=
  rfl

lemma sudoDefault_cmds (s : Scaffold) (cmd : String) (h : cmd ≠ "") :
    s.«sudo» cmd {} =
      { s with semaphore := s.semaphore + 1
               cmds := s.cmds ++ ["sudo -E " ++ cmd] } := by
  simp [Scaffold.«sudo», Scaffold.run, renderCmd, h]

/-! ## Lemmas about the local drain loop -/

lemma runLocalAux_history (stub : Bool) (lo : String → Option String) :
    ∀ (cmds : List String) (sem : Int),
      (runLocalAux stub lo cmds sem).history = cmds := by
  intro cmds
  induction cmds with
  | nil => intro sem; cases stub <;> rfl
  | cons c rest ih =>
    intro sem
    cases stub
    · rcases h : lo c with _ | e <;> simp [runLocalAux, h, ih]
    · simp [runLocalAux, ih]

lemma runLocalAux_sem (stub : Bool) (lo : String → Option String) :
    ∀ (cmds : List String) (sem : Int),
      (runLocalAux stub lo cmds sem).sem = sem - cmds.length := by
  intro cmds
  induction cmds with
  | nil => intro sem; cases stub <;> simp [runLocalAux]
  | cons c rest ih =>
    intro sem
    cases stub
    · rcases h : lo c with _ | e <;> simp [runLocalAux, h, ih] <;> omega
    · simp [runLocalAux, ih]; omega

lemma runLocalAux_stub (lo : String → Option String) :
    ∀ (cmds : List String) (sem : Int),
      (runLocalAux true lo cmds sem).localExecCalls = [] ∧
      (runLocalAux true lo cmds sem).cbCalls = [none] ∧
      (runLocalAux true lo cmds sem).transportExecCalls = [] ∧
      (runLocalAux true lo cmds sem).events = [] := by
  intro cmds
  induction cmds with
  | nil => intro sem; exact ⟨rfl, rfl, rfl, rfl⟩
  | cons c rest ih =>
    intro sem
    simpa [runLocalAux] using ih (sem - 1)

lemma runLocalAux_live (lo : String → Option String) :
    ∀ (cmds : List String) (sem : Int),
      (runLocalAux false lo cmds sem).localExecCalls = cmds ∧
      (runLocalAux false lo cmds sem).transportExecCalls = [] ∧
      (runLocalAux false lo cmds sem).events = [] := by
  intro cmds
  induction cmds with
  | nil => intro sem; exact ⟨rfl, rfl, rfl⟩
  | cons c rest ih =>
    intro sem
    rcases h : lo c with _ | e <;> simpa [runLocalAux, h] using ih (sem - 1)

lemma runLocalAux_cb_ok (lo : String → Option String)
    (hlo : ∀ c, lo c = none) :
    ∀ (cmds : List String) (sem : Int),
      (runLocalAux false lo cmds sem).cbCalls = [none] := by
  intro cmds
  induction cmds with
  | nil => intro sem; rfl
  | cons c rest ih =>
    intro sem
    simp [runLocalAux, hlo c, ih]

/-! ## Claim theorems: rendering and builder behaviour -/

/-- Claim C6: for a non-empty command, `run(cmd, {cwd})` queues exactly
`cd <cwd> && <cmd>`; `run(cmd, {sudo:true})` queues exactly
`sudo -E <cmd>`; and with both options the `cd` clause itself receives the
inner `sudo ` escalation before the outer `sudo -E ` wrap is applied. -/
theorem run_cwd_sudo_rendering (s : Scaffold) (cmd cwd : String)
    (hc : cmd ≠ "") (hw : cwd ≠ "") :
    (s.run cmd { cwd := some cwd }).cmds
      = s.cmds ++ ["cd " ++ cwd ++ " && " ++ cmd] ∧
    (s.run cmd { «sudo» := some true }).cmds
      = s.cmds ++ ["sudo -E " ++ cmd] ∧
    (s.run cmd { cwd := some cwd, «sudo» := some true }).cmds
      = s.cmds ++ ["sudo -E " ++ ("cd " ++ cwd ++ " && " ++ "sudo " ++ cmd)] := by
  refine ⟨?_, ?_, ?_⟩ <;>
    simp [Scaffold.run, renderCmd, hc, hw, String.append_assoc]

/-- Witness for C6 at `cmd = "ls"`, `cwd = "/tmp"`. -/
theorem run_cwd_sudo_rendering_witness :
    (scaffoldInit.run "ls" { cwd := some "/tmp" }).cmds = ["cd /tmp && ls"] ∧
    (scaffoldInit.run "ls" { «sudo» := some true }).cmds = ["sudo -E ls"] ∧
    (scaffoldInit.run "ls" { cwd := some "/tmp", «sudo» := some true }).cmds
      = ["sudo -E cd /tmp && sudo ls"] := by
  have h := run_cwd_sudo_rendering scaffoldInit "ls" "/tmp" (by decide) (by decide)
  exact ⟨h.1.trans (by decide), h.2.1.trans (by decide), h.2.2.trans (by decide)⟩

/-- Claim C9: `sudo(cmd)` (with no options object) produces exactly the
same instance state — queue, history, semaphore count, diagnostics — as
`run(cmd, {sudo:true})`. -/
theorem sudo_equiv_run_sudo_true (s : Scaffold) (cmd : String) :
    s.«sudo» cmd {} = s.run cmd { «sudo» := some true } := by
  by_cases hc : cmd = "" <;> simp [Scaffold.«sudo», Scaffold.run, hc, renderCmd]

/-- Claim C10: `sudo` overwrites the caller's `sudo` option with `true`
before delegating to `run`, so even an explicit `sudo:false` is escalated:
the state is the same as with `sudo:true`, and the queued string carries
the `sudo -E ` elevation wrap. -/
theorem sudo_cannot_opt_out (s : Scaffold) (cmd : String)
    (opts : ICommandOpts) (h : cmd ≠ "") :
    s.«sudo» cmd { opts with «sudo» := some false }
      = s.«sudo» cmd { opts with «sudo» := some true } ∧
    (s.«sudo» cmd { opts with «sudo» := some false }).cmds
      = s.cmds ++ ["sudo -E " ++ (if opts.cwd.getD "" = "" then cmd
          else "cd " ++ opts.cwd.getD "" ++ " && " ++ "sudo " ++ cmd)] := by
  constructor
  · rfl
  · by_cases hw : opts.cwd.getD "" = "" <;>
      simp [Scaffold.«sudo», Scaffold.run, renderCmd, h, hw, String.append_assoc]

/-- Witness for C10 at `cmd = "ls"`, options explicitly requesting
`sudo:false`. -/
theorem sudo_cannot_opt_out_witness :
    (scaffoldInit.«sudo» "ls" { «sudo» := some false }).cmds = ["sudo -E ls"] := by
  have h := sudo_cannot_opt_out scaffoldInit "ls" {} (by decide)
  exact h.2.trans (by decide)

/-- Claim C7: `put(local, remote)` with default options appends exactly
three entries to the queue, in order: the privilege-escalated heredoc `tee`
write naming the target path, the recursive privilege-escalated ownership
change to `root.root`, and the recursive privilege-escalated permission
change to `755`; it increments the semaphore three times, and a subsequent
local drain records those exact three entries as the history. -/
theorem put_appends_three_entries (s : Scaffold)
    (content heredocId rfile : String) (lo : String → Option String) :
    (s.put content heredocId rfile {}).cmds = s.cmds ++
      [ "sudo -E " ++ ("tee " ++ rfile ++ " <<-\x27" ++ heredocId ++ "\x27\n"
          ++ content ++ "\n" ++ heredocId),
        "sudo -E " ++ ("chown -R root.root " ++ rfile),
        "sudo -E " ++ ("chmod -R 755 " ++ rfile) ] ∧
    (s.put content heredocId rfile {}).semaphore = s.semaphore + 3 ∧
    (s.put content heredocId rfile {}).history = s.history ∧
    ((scaffoldInit.put content heredocId rfile {}).runLocal false lo).history
      = [ "sudo -E " ++ ("tee " ++ rfile ++ " <<-\x27" ++ heredocId ++ "\x27\n"
          ++ content ++ "\n" ++ heredocId),
        "sudo -E " ++ ("chown -R root.root " ++ rfile),
        "sudo -E " ++ ("chmod -R 755 " ++ rfile) ] := by
  have h1 : "tee " ++ (rfile ++ (" <<-\x27" ++ (heredocId ++ ("\x27\n"
      ++ (content ++ ("\n" ++ heredocId)))))) ≠ "" := by
    apply append_left_ne_empty
    decide
  have h2 : "chown -R root.root " ++ rfile ≠ "" := by
    apply append_left_ne_empty
    decide
  have h3 : "chmod -R 755 " ++ rfile ≠ "" := by
    apply append_left_ne_empty
    decide
  refine ⟨?_, ?_, ?_, ?_⟩
  · simp [Scaffold.put, sudoDefault_cmds, h1, h2, h3, String.append_assoc]
  · simp [Scaffold.put, sudoDefault_cmds, h1, h2, h3, String.append_assoc]
    omega
  · simp [Scaffold.put, sudoDefault_cmds, h1, h2, h3, String.append_assoc]
  · simp [Scaffold.put, Scaffold.runLocal, runLocalAux_history,
      sudoDefault_cmds, h1, h2, h3, scaffoldInit, String.append_assoc]

/-- Claim C8: `copy(src, dst)` with a source that does not exist queues
nothing — the queue, the history, and the semaphore are untouched — emits
exactly one immediate diagnostic line, and still returns the instance
state for further chaining (the call is not a hard failure). -/
theorem copy_missing_source_noop (s : Scaffold) (src dst : String)
    (opts : ICommandOpts) :
    (s.copy false src dst opts).cmds = s.cmds ∧
    (s.copy false src dst opts).history = s.history ∧
    (s.copy false src dst opts).semaphore = s.semaphore ∧
    (s.copy false src dst opts).logs
      = s.logs ++ ["No copy.  " ++ src ++ " does not exist"] := by
  refine ⟨?_, ?_, ?_, ?_⟩ <;> simp [Scaffold.copy]

/-- Claim C2 is false of the code (code bug): in local live mode, after the
first failing command the drain does not abort — the `return cb(err, self)`
in the source only leaves the inner `callSync` callback, so the loop keeps
executing the remaining queue, and the callback fires a second time with a
null error when the loop ends.  Evaluated at the queue
`["false", "echo ok"]` where `"false"` fails: the local capability is also
invoked for `"echo ok"`, and the callback is invoked twice. -/
theorem runLocal_continues_after_failure :
    (((scaffoldInit.run "false" {}).run "echo ok" {}).runLocal false
        (fun c => if c = "false" then some "nonzero exit" else none)).localExecCalls
      = ["false", "echo ok"] ∧
    (((scaffoldInit.run "false" {}).run "echo ok" {}).runLocal false
        (fun c => if c = "false" then some "nonzero exit" else none)).cbCalls
      = [some "nonzero exit", none] ∧
    (((scaffoldInit.run "false" {}).run "echo ok" {}).runLocal false
        (fun c => if c = "false" then some "nonzero exit" else none)).history
      = ["false", "echo ok"] := by
  decide


/-! ## Lemmas about builder sequences -/

lemma applyOps_state :
    ∀ (ops : List BuildOp) (s : Scaffold),
      (applyOps s ops).cmds = s.cmds ++ ops.filterMap renderedOf ∧
      (applyOps s ops).history = s.history ∧
      (applyOps s ops).semaphore
        = s.semaphore + ((ops.filterMap renderedOf).length : Int) ∧
      (applyOps s ops).logs = s.logs := by
  intro ops
  induction ops with
  | nil => intro s; simp [applyOps]
  | cons op rest ih =>
    intro s
    cases op with
    | runOp c o =>
      by_cases hc : c = ""
      · subst hc
        simpa [applyOps, run_of_empty, renderedOf] using ih s
      · obtain ⟨e1, e2, e3, e4⟩ := ih (s.run c o)
        simp only [applyOps]
        rw [e1, e2, e3, e4, run_of_ne _ _ _ hc]
        refine ⟨?_, ?_, ?_, ?_⟩ <;> simp [renderedOf, hc]
        omega
    | sudoOp c o =>
      by_cases hc : c = ""
      · subst hc
        simpa [applyOps, sudo_as_run, run_of_empty, renderedOf] using ih s
      · obtain ⟨e1, e2, e3, e4⟩ := ih (s.«sudo» c o)
        simp only [applyOps]
        rw [e1, e2, e3, e4, sudo_as_run, run_of_ne _ _ _ hc]
        refine ⟨?_, ?_, ?_, ?_⟩ <;> simp [renderedOf, hc]
        omega

lemma buildScaffold_lockstep (ops : List BuildOp) :
    (buildScaffold ops).cmds = ops.filterMap renderedOf ∧
    (buildScaffold ops).history = [] ∧
    (buildScaffold ops).semaphore = ((buildScaffold ops).cmds.length : Int) := by
  obtain ⟨e1, e2, e3, _⟩ := applyOps_state ops scaffoldInit
  refine ⟨?_, ?_, ?_⟩
  · simp only [buildScaffold]
    rw [e1]
    simp [scaffoldInit]
  · simp only [buildScaffold]
    rw [e2]
    simp [scaffoldInit]
  · simp only [buildScaffold]
    rw [e3, e1]
    simp [scaffoldInit]

/-! ## Lemmas about the remote drain -/

lemma remoteConsume_stub_state :
    ∀ (queue : List String) (ro : Nat → ROutcome) (i : Nat) (cmd : String)
      (sem : Int),
      (remoteConsume true ro i cmd queue sem).history = cmd :: queue ∧
      (remoteConsume true ro i cmd queue sem).localExecCalls = [] ∧
      (remoteConsume true ro i cmd queue sem).transportExecCalls = [] ∧
      (remoteConsume true ro i cmd queue sem).events = [] ∧
      (remoteConsume true ro i cmd queue sem).cbCalls = [] ∧
      (remoteConsume true ro i cmd queue sem).sem = sem - (queue.length + 1) := by
  intro queue
  induction queue with
  | nil => intro ro i cmd sem; simp [remoteConsume]
  | cons c rest ih =>
    intro ro i cmd sem
    obtain ⟨e1, e2, e3, e4, e5, e6⟩ := ih ro (i + 1) c (sem - 1)
    refine ⟨?_, ?_, ?_, ?_, ?_, ?_⟩ <;>
      simp [remoteConsume, e1, e2, e3, e4, e5, e6]
    omega

lemma remoteConsume_ok_state :
    ∀ (queue : List String) (ro : Nat → ROutcome) (i : Nat) (cmd : String)
      (sem : Int), (∀ j, ro j = ROutcome.ok) →
      (remoteConsume false ro i cmd queue sem).history = cmd :: queue ∧
      (remoteConsume false ro i cmd queue sem).localExecCalls = [] ∧
      (remoteConsume false ro i cmd queue sem).transportExecCalls = cmd :: queue ∧
      (remoteConsume false ro i cmd queue sem).cbCalls = [] ∧
      (remoteConsume false ro i cmd queue sem).sem = sem - (queue.length + 1) := by
  intro queue
  induction queue with
  | nil => intro ro i cmd sem hro; simp [remoteConsume, hro i]
  | cons c rest ih =>
    intro ro i cmd sem hro
    obtain ⟨e1, e2, e3, e4, e5⟩ := ih ro (i + 1) c (sem - 1) hro
    refine ⟨?_, ?_, ?_, ?_, ?_⟩ <;>
      simp [remoteConsume, hro i, e1, e2, e3, e4, e5]
    omega

/-! ## Claim theorems: history and completion signal -/

/-- Claim C1: for every sequence of `run`/`sudo` builder calls and a local
drain in which no command fails, the history after `go` is exactly the
list of rendered command strings, in submission order, and the callback
reports success once. -/
theorem history_records_rendered_in_order
    (ops : List BuildOp) (lo : String → Option String) (ro : Nat → ROutcome)
    (hlo : ∀ c, lo c = none) :
    ((buildScaffold ops).go cfgLocalLive lo ro).history
      = ops.filterMap renderedOf ∧
    ((buildScaffold ops).go cfgLocalLive lo ro).cbCalls = [none] := by
  obtain ⟨e1, e2, _⟩ := buildScaffold_lockstep ops
  constructor
  · simp [Scaffold.go, cfgLocalLive, Scaffold.runLocal, runLocalAux_history,
      e1, e2]
  · simp [Scaffold.go, cfgLocalLive, Scaffold.runLocal, runLocalAux_cb_ok lo hlo]

/-- Witness for C1 at the spec example: `run("ls -a")`, `run("pwd")`,
`run("ls /usr/bin", {sudo:true})`. -/
theorem history_records_rendered_in_order_witness :
    ((buildScaffold [BuildOp.runOp "ls -a" {}, BuildOp.runOp "pwd" {},
        BuildOp.runOp "ls /usr/bin" { «sudo» := some true }]).go cfgLocalLive
        (fun _ => none) (fun _ => ROutcome.ok)).history
      = ["ls -a", "pwd", "sudo -E ls /usr/bin"] := by
  have h := history_records_rendered_in_order
    [BuildOp.runOp "ls -a" {}, BuildOp.runOp "pwd" {},
      BuildOp.runOp "ls /usr/bin" { «sudo» := some true }]
    (fun _ => none) (fun _ => ROutcome.ok) (fun _ => rfl)
  exact h.1.trans (by decide)

/-- Claim C4: the completion signal stays in lock-step with the queue:
`run` on a non-empty command increments the count exactly once while
queueing exactly one entry, and on an empty command changes nothing; after
any builder sequence the count equals the queue length; the local drain
decrements once per drained command, and a fully successful remote drain
decrements once per completed command; the waiting consumer is released
(`waitOutcome = none`) exactly when the count is zero, any other count
being the timeout failure. -/
theorem completion_signal_lockstep :
    (∀ (s : Scaffold) (cmd : String) (opts : ICommandOpts), cmd ≠ "" →
      (s.run cmd opts).semaphore = s.semaphore + 1 ∧
      (s.run cmd opts).cmds.length = s.cmds.length + 1) ∧
    (∀ (s : Scaffold) (opts : ICommandOpts), s.run "" opts = s) ∧
    (∀ ops : List BuildOp,
      (buildScaffold ops).semaphore = ((buildScaffold ops).cmds.length : Int)) ∧
    (∀ (s : Scaffold) (stub : Bool) (lo : String → Option String),
      (s.runLocal stub lo).sem = s.semaphore - s.cmds.length) ∧
    (∀ (ro : Nat → ROutcome) (i : Nat) (cmd : String) (queue : List String)
      (sem : Int), (∀ j, ro j = ROutcome.ok) →
      (remoteConsume false ro i cmd queue sem).sem = sem - (queue.length + 1)) ∧
    (∀ count : Int, waitOutcome count = none ↔ count = 0) := by
  refine ⟨?_, ?_, ?_, ?_, ?_, ?_⟩
  · intro s cmd opts h
    simp [run_of_ne _ _ _ h]
  · intro s opts
    exact run_of_empty s opts
  · intro ops
    exact (buildScaffold_lockstep ops).2.2
  · intro s stub lo
    simp [Scaffold.runLocal, runLocalAux_sem]
  · intro ro i cmd queue sem hro
    exact (remoteConsume_ok_state queue ro i cmd sem hro).2.2.2.2
  · intro count
    simp [waitOutcome]

/-- Witness for C4: one enqueue raises the count to one, a local drain of a
one-command queue returns it to zero, a successful remote drain of a
two-command queue decrements twice, and the wait gate releases at zero. -/
theorem completion_signal_lockstep_witness :
    (scaffoldInit.run "ls" {}).semaphore = 1 ∧
    ((buildScaffold [BuildOp.runOp "ls" {}]).runLocal false (fun _ => none)).sem = 0 ∧
    (remoteConsume false (fun _ => ROutcome.ok) 0 "a" ["b"] 2).sem = 0 ∧
    waitOutcome 0 = none := by
  obtain ⟨h1, _, _, h4, h5, h6⟩ := completion_signal_lockstep
  refine ⟨?_, ?_, ?_, ?_⟩
  · exact ((h1 scaffoldInit "ls" {} (by decide)).1).trans (by decide)
  · exact (h4 (buildScaffold [BuildOp.runOp "ls" {}]) false (fun _ => none)).trans
      (by decide)
  · exact (h5 (fun _ => ROutcome.ok) 0 "a" ["b"] 2 (fun _ => rfl)).trans (by decide)
  · exact (h6 0).mpr rfl


/-! ## Backend-selection reductions for the four configurations -/

lemma go_cfgLocalLive (s : Scaffold) (lo : String → Option String)
    (ro : Nat → ROutcome) : s.go cfgLocalLive lo ro = s.runLocal false lo := rfl

lemma go_cfgLocalStub (s : Scaffold) (lo : String → Option String)
    (ro : Nat → ROutcome) : s.go cfgLocalStub lo ro = s.runLocal true lo := rfl

lemma go_cfgRemoteLive (s : Scaffold) (lo : String → Option String)
    (ro : Nat → ROutcome) : s.go cfgRemoteLive lo ro = s.runRemote false ro := rfl

lemma go_cfgRemoteStub (s : Scaffold) (lo : String → Option String)
    (ro : Nat → ROutcome) : s.go cfgRemoteStub lo ro = s.runRemote true ro := rfl

/-- Claim C5: in stub (dry-run) mode, for a builder sequence that queues at
least one command, neither the local execution capability nor the transport
capability is ever invoked (no local calls, no transport calls, no channel
events), the history after `go` is identical to what the live path records,
and the `go` callback fires exactly once, with success, when the simulated
queue has emptied — in both the local and the remote backend. -/
theorem stub_mode_contract (ops : List BuildOp)
    (lo : String → Option String) (ro : Nat → ROutcome)
    (hro : ∀ i, ro i = ROutcome.ok)
    (hne : (buildScaffold ops).cmds ≠ []) :
    ((buildScaffold ops).go cfgLocalStub lo ro).localExecCalls = [] ∧
    ((buildScaffold ops).go cfgLocalStub lo ro).transportExecCalls = [] ∧
    ((buildScaffold ops).go cfgLocalStub lo ro).history
      = ((buildScaffold ops).go cfgLocalLive lo ro).history ∧
    ((buildScaffold ops).go cfgLocalStub lo ro).cbCalls = [none] ∧
    ((buildScaffold ops).go cfgRemoteStub lo ro).localExecCalls = [] ∧
    ((buildScaffold ops).go cfgRemoteStub lo ro).transportExecCalls = [] ∧
    ((buildScaffold ops).go cfgRemoteStub lo ro).events = [] ∧
    ((buildScaffold ops).go cfgRemoteStub lo ro).history
      = ((buildScaffold ops).go cfgRemoteLive lo ro).history ∧
    ((buildScaffold ops).go cfgRemoteStub lo ro).cbCalls = [none] := by
  obtain ⟨_, _, e3⟩ := buildScaffold_lockstep ops
  rcases hq : (buildScaffold ops).cmds with _ | ⟨c, rest⟩
  · exact absurd hq hne
  have hsem : (buildScaffold ops).semaphore = (rest.length + 1 : Int) := by
    rw [e3, hq]
    simp
  refine ⟨?_, ?_, ?_, ?_, ?_, ?_, ?_, ?_, ?_⟩
  · simp [go_cfgLocalStub, Scaffold.runLocal, runLocalAux_stub]
  · simp [go_cfgLocalStub, Scaffold.runLocal, runLocalAux_stub]
  · simp [go_cfgLocalStub, go_cfgLocalLive, Scaffold.runLocal, runLocalAux_history]
  · simp [go_cfgLocalStub, Scaffold.runLocal, runLocalAux_stub]
  · simp [go_cfgRemoteStub, Scaffold.runRemote, hq, remoteConsume_stub_state]
  · simp [go_cfgRemoteStub, Scaffold.runRemote, hq, remoteConsume_stub_state]
  · simp [go_cfgRemoteStub, Scaffold.runRemote, hq, remoteConsume_stub_state]
  · have hlive := (remoteConsume_ok_state rest ro 0 c
      (buildScaffold ops).semaphore hro).1
    simp [go_cfgRemoteStub, go_cfgRemoteLive, Scaffold.runRemote, hq,
      remoteConsume_stub_state, hlive]
  · simp [go_cfgRemoteStub, Scaffold.runRemote, hq, remoteConsume_stub_state,
      hsem, waitOutcome]

/-- Witness for C5 at the one-command sequence `run("uname")`. -/
theorem stub_mode_contract_witness :
    ((buildScaffold [BuildOp.runOp "uname" {}]).go cfgLocalStub (fun _ => none)
        (fun _ => ROutcome.ok)).localExecCalls = [] ∧
    ((buildScaffold [BuildOp.runOp "uname" {}]).go cfgRemoteStub (fun _ => none)
        (fun _ => ROutcome.ok)).cbCalls = [none] := by
  have h := stub_mode_contract [BuildOp.runOp "uname" {}] (fun _ => none)
    (fun _ => ROutcome.ok) (fun _ => rfl) (by decide)
  exact ⟨h.1, h.2.2.2.2.2.2.2.2⟩


/-! ## Serialization of the remote dispatches -/

/-- Structure of the remote event trace: every `execCall` either belongs to
the command that started the drain segment (index `i`, trace position 0) or
is preceded, strictly earlier in the trace, by the clean `chanClose` of the
previous command — because the source only dispatches the next command from
inside the close handler of the current one. -/
lemma remote_events_struct :
    ∀ (queue : List String) (ro : Nat → ROutcome) (i : Nat) (cmd : String)
      (sem : Int) (q k : Nat) (c₂ : String),
      (remoteConsume false ro i cmd queue sem).events.get? q
          = some (REvent.execCall k c₂) →
      (k = i ∧ q = 0) ∨
      (i < k ∧ ∃ p c₁, p < q ∧
        (remoteConsume false ro i cmd queue sem).events.get? p
          = some (REvent.chanClose (k - 1) c₁ true)) := by
  intro queue
  induction queue with
  | nil =>
    intro ro i cmd sem q k c₂ h
    left
    rcases hro : ro i with _ | _ | _
    · simp [remoteConsume, hro] at h
      cases q with
      | zero => simp at h; exact ⟨h.1.symm, rfl⟩
      | succ n => simp at h
    · simp [remoteConsume, hro] at h
      cases q with
      | zero => simp at h; exact ⟨h.1.symm, rfl⟩
      | succ n =>
        cases n with
        | zero => simp at h
        | succ m => simp at h
    · simp [remoteConsume, hro] at h
      cases q with
      | zero => simp at h; exact ⟨h.1.symm, rfl⟩
      | succ n =>
        cases n with
        | zero => simp at h
        | succ m => simp at h
  | cons c rest ih =>
    intro ro i cmd sem q k c₂ h
    rcases hro : ro i with _ | _ | _
    · left
      simp [remoteConsume, hro] at h
      cases q with
      | zero => simp at h; exact ⟨h.1.symm, rfl⟩
      | succ n => simp at h
    · left
      simp [remoteConsume, hro] at h
      cases q with
      | zero => simp at h; exact ⟨h.1.symm, rfl⟩
      | succ n =>
        cases n with
        | zero => simp at h
        | succ m => simp at h
    · have hev : (remoteConsume false ro i cmd (c :: rest) sem).events
          = REvent.execCall i cmd :: REvent.chanClose i cmd true ::
            (remoteConsume false ro (i + 1) c rest (sem - 1)).events := by
        simp [remoteConsume, hro]
      rw [hev] at h
      cases q with
      | zero =>
        left
        simp at h
        exact ⟨h.1.symm, rfl⟩
      | succ n =>
        cases n with
        | zero => simp at h
        | succ m =>
          right
          have hm : (remoteConsume false ro (i + 1) c rest (sem - 1)).events.get? m
              = some (REvent.execCall k c₂) := by simpa using h
          rcases ih ro (i + 1) c (sem - 1) m k c₂ hm with
            ⟨hk, _⟩ | ⟨hik, p, c₁, hpq, hp⟩
          · refine ⟨by omega, 1, cmd, by omega, ?_⟩
            rw [hev]
            simp [hk]
          · refine ⟨by omega, p + 2, c₁, by omega, ?_⟩
            rw [hev]
            simpa using hp

/-- Claim C3: under the remote backend, the transport's `exec` is invoked
for command `k+1` only after command `k`'s channel has emitted its close
event: any `execCall (k+1)` in the drain's event trace is strictly preceded
by a clean `chanClose k`.  The trace is the interleaving produced by the
single-threaded event loop, so this also expresses that no two remote
commands are ever in flight concurrently. -/
theorem remote_exec_serialized (s : Scaffold) (ro : Nat → ROutcome)
    (k q : Nat) (c₂ : String)
    (h : (s.runRemote false ro).events.get? q
        = some (REvent.execCall (k + 1) c₂)) :
    ∃ p c₁, p < q ∧ (s.runRemote false ro).events.get? p
        = some (REvent.chanClose k c₁ true) := by
  rcases hq : s.cmds with _ | ⟨c, rest⟩
  · simp only [Scaffold.runRemote, hq] at h
    simp at h
  · have h' : (remoteConsume false ro 0 c rest s.semaphore).events.get? q
        = some (REvent.execCall (k + 1) c₂) := by
      simp only [Scaffold.runRemote, hq] at h
      simpa using h
    rcases remote_events_struct rest ro 0 c s.semaphore q (k + 1) c₂ h' with
      ⟨hk, _⟩ | ⟨_, p, c₁, hpq, hp⟩
    · exact absurd hk (Nat.succ_ne_zero k)
    · refine ⟨p, c₁, hpq, ?_⟩
      simp only [Scaffold.runRemote, hq]
      simpa using hp

/-- Witness for C3: a two-command queue drained with clean closes; the
dispatch of the second command (trace position 2) is preceded by the close
of the first (position 1). -/
theorem remote_exec_serialized_witness :
    ∃ p c₁, p < 2 ∧
      (((scaffoldInit.run "a" {}).run "b" {}).runRemote false
          (fun _ => ROutcome.ok)).events.get? p
        = some (REvent.chanClose 0 c₁ true) :=
  remote_exec_serialized ((scaffoldInit.run "a" {}).run "b" {})
    (fun _ => ROutcome.ok) 0 2 "b" (by decide)


end Halfback
